import Mathlib

/-!
Verification development for the grok2api gateway core.

Shallow embedding of:

* the gRPC-web wire codec (`src/app/services/grok/nsfw.py`),
* the two-layer resilient request executor (`src/app/core/retry.py`),
* the streaming translation engine (`src/app/services/grok/processer.py`),
* the client orchestrator's moderation-recovery retry loop
  (`src/app/services/grok/client.py`).

Bytes are modelled as `Nat` values, Python ints as `Int`/`Nat`, clock
instants as `Rat`, asynchronous sleeps as recorded trace entries.
External collaborators (token provider, proxy pool, media caches)
appear as explicit function parameters or recorded trace events.
-/

namespace Grok2Api

/-! ## Python string primitives

The Lean core `String` functions (`trim`, `splitOn`, `toLower`, …) are
implemented over byte positions and do not reduce inside the kernel, so
the Python string operations used by the sources are re-implemented
here over character lists, following Python semantics. -/

/-- Python whitespace (`str.strip` default set). -/
def pyIsSpace (c : Char) : Bool :=
  c = ' ' || c = '\t' || c = '\n' || c = '\r' || c = '\x0b' || c = '\x0c'

/-- Python `str.strip()`. -/
def pyStrip (s : String) : String :=
  String.mk (((s.data.dropWhile pyIsSpace).reverse.dropWhile pyIsSpace).reverse)

/-- ASCII lowering of one character (the keys and markers that are
lowered by the sources are ASCII). -/
def pyLowerChar (c : Char) : Char :=
  if 'A' ≤ c ∧ c ≤ 'Z' then Char.ofNat (c.toNat + 32) else c

/-- Python `str.lower()` restricted to ASCII case folding. -/
def pyLower (s : String) : String :=
  String.mk (s.data.map pyLowerChar)

/-- Greedy left-to-right split on a non-empty separator, as in Python
`str.split(sep)`.  `fuel` dominates the scan length. -/
def pySplitAux (sep : List Char) : Nat → List Char → List Char → List (List Char)
  | _, [], acc => [acc.reverse]
  | 0, cs, acc => [acc.reverse ++ cs]
  | fuel + 1, c :: rest, acc =>
    if sep.isPrefixOf (c :: rest) then
      acc.reverse :: pySplitAux sep fuel (List.drop sep.length (c :: rest)) []
    else pySplitAux sep fuel rest (c :: acc)

/-- Python `s.split(sep)` for a non-empty separator. -/
def pySplit (s sep : String) : List String :=
  (pySplitAux sep.data (s.data.length + 1) s.data []).map String.mk

/-- Python `s.replace(old, new)` for a non-empty `old`. -/
def pyReplaceAux (old new : List Char) : Nat → List Char → List Char
  | _, [] => []
  | 0, cs => cs
  | fuel + 1, c :: rest =>
    if old.isPrefixOf (c :: rest) then
      new ++ pyReplaceAux old new fuel (List.drop old.length (c :: rest))
    else c :: pyReplaceAux old new fuel rest

/-- Python `s.replace(old, new)`. -/
def pyReplace (s old new : String) : String :=
  String.mk (pyReplaceAux old.data new.data (s.data.length + 1) s.data)

/-- Python `sep.join(parts)`. -/
def pyJoinSep (sep : String) (parts : List String) : String :=
  String.mk (List.intercalate sep.data (parts.map String.data))

/-- Substring scan over character lists. -/
def infixAux (pat : List Char) : List Char → Bool
  | [] => pat.isEmpty
  | c :: rest => pat.isPrefixOf (c :: rest) || infixAux pat rest

/-- Python membership test `pat in s` on strings. -/
def pyInStr (pat s : String) : Bool :=
  infixAux pat.data s.data

/-! ## Wire codec — `src/app/services/grok/nsfw.py` -/

/-- Big-endian 4-byte encoding of `n`, as produced by
`struct.pack_into(">I", frame, 1, len(data))`.  `struct.pack_into`
raises for `n ≥ 2^32`; callers establish `n < 2^32` as a hypothesis. -/
def packBE32 (n : Nat) : List Nat :=
  [n / 2 ^ 24 % 256, n / 2 ^ 16 % 256, n / 2 ^ 8 % 256, n % 256]

/-- Big-endian read of 4 bytes, as done by `struct.unpack_from(">I", body, offset + 1)`. -/
def unpackBE32 (b0 b1 b2 b3 : Nat) : Nat :=
  ((b0 * 256 + b1) * 256 + b2) * 256 + b3

/-- Model of `_encode_grpc_web_payload`: 1-byte flag `0x00`, 4-byte big-endian
length, then the payload bytes. -/
def encodeGrpcWebPayload (data : List Nat) : List Nat :=
  0x00 :: packBE32 data.length ++ data

/-- ASCII-oriented rendering of `data.decode("utf-8", errors="replace")`:
bytes below 128 decode to themselves, any other byte to U+FFFD.  (The
only trailer text the upstream produces is ASCII; multi-byte UTF-8
sequences are approximated by replacement characters.) -/
def bytesToText (bs : List Nat) : String :=
  String.mk (bs.map fun b => if b < 128 then Char.ofNat b else Char.ofNat 0xFFFD)

/-- Overwriting insert, modelling Python `dict` assignment `trailers[key] = value`. -/
def dictInsert (m : List (String × String)) (k v : String) : List (String × String) :=
  if m.any (fun p => p.1 = k) then
    m.map (fun p => if p.1 = k then (k, v) else p)
  else m ++ [(k, v)]

/-- Python `dict.get(key)` over the association-list model. -/
def dictGet (m : List (String × String)) (k : String) : Option String :=
  (m.find? (fun p => p.1 = k)).map (fun p => p.2)

/-- One trailer line: `idx = line.find(":")`; accepted only when `idx > 0`;
key is `line[:idx].strip().lower()`, value is `line[idx+1:].strip()`. -/
def parseTrailerLine (m : List (String × String)) (line : String) : List (String × String) :=
  match pySplit line ":" with
  | [] => m
  | [_] => m
  | first :: rest =>
    if first ≠ "" then
      dictInsert m (pyLower (pyStrip first)) (pyStrip (pyJoinSep ":" rest))
    else m

/-- Trailer frame text: CRLF-separated `key: value` lines folded into the mapping. -/
def parseTrailerText (text : String) (m : List (String × String)) : List (String × String) :=
  (pySplit text "\r\n").foldl parseTrailerLine m

/-- Loop body of `_parse_grpc_web_response`.  Each iteration needs a
5-byte header (flag + big-endian length); a truncated header or a
declared length exceeding the remaining bytes stops the scan silently.
Flag `0x80` marks a trailer frame, anything else a message frame.
`fuel` dominates the number of iterations (each consumes ≥ 5 bytes). -/
def parseFramesAux : Nat → List Nat → List (List Nat) → List (String × String) →
    List (List Nat) × List (String × String)
  | 0, _, msgs, trs => (msgs, trs)
  | fuel + 1, body, msgs, trs =>
    match body with
    | f :: b0 :: b1 :: b2 :: b3 :: rest =>
      let len := unpackBE32 b0 b1 b2 b3
      if len ≤ rest.length then
        let data := rest.take len
        let rest' := rest.drop len
        if f = 0x80 then
          parseFramesAux fuel rest' msgs (parseTrailerText (bytesToText data) trs)
        else
          parseFramesAux fuel rest' (msgs ++ [data]) trs
      else (msgs, trs)
    | _ => (msgs, trs)

/-- Model of `_parse_grpc_web_response`: returns `(messages, trailers)`. -/
def parseGrpcWebResponse (body : List Nat) : List (List Nat) × List (String × String) :=
  parseFramesAux (body.length + 1) body [] []

/-- Value of a digit run, most significant first. -/
def digitsVal (ds : List Char) : Int :=
  ds.foldl (fun a c => a * 10 + (Int.ofNat (c.toNat - 48))) 0

/-- Python `int(s)` on a decimal string literal: strips surrounding
whitespace, takes an optional sign, then requires a non-empty digit run;
anything else raises `ValueError`, modelled as `none`.  (Pythons
digit-grouping underscores are not modelled; no caller passes them.) -/
def parsePyInt (s : String) : Option Int :=
  match (pyStrip s).data with
  | [] => none
  | '-' :: ds =>
    if ds ≠ [] ∧ ds.all Char.isDigit then some (-(digitsVal ds)) else none
  | '+' :: ds =>
    if ds ≠ [] ∧ ds.all Char.isDigit then some (digitsVal ds) else none
  | ds =>
    if ds.all Char.isDigit then some (digitsVal ds) else none

/-- Hex digit value for percent-decoding. -/
def hexVal (c : Char) : Option Nat :=
  if c.isDigit then some (c.toNat - 48)
  else if 'a' ≤ c ∧ c ≤ 'f' then some (c.toNat - 87)
  else if 'A' ≤ c ∧ c ≤ 'F' then some (c.toNat - 55)
  else none

/-- Core of `urllib.parse.unquote`: `%xy` with two hex digits decodes to
the byte value, an invalid escape keeps the `%` and rescans from the
next character.  (Byte values are mapped directly to code points, an
ASCII-faithful approximation of the UTF-8 decode.) -/
def pyUnquoteAux : Nat → List Char → List Char
  | _, [] => []
  | 0, cs => cs
  | fuel + 1, '%' :: a :: b :: rest =>
    match hexVal a, hexVal b with
    | some x, some y => Char.ofNat (16 * x + y) :: pyUnquoteAux fuel rest
    | _, _ => '%' :: pyUnquoteAux fuel (a :: b :: rest)
  | fuel + 1, c :: rest => c :: pyUnquoteAux fuel rest

/-- Model of `urllib.parse.unquote` (`fuel` dominates the scan,
every step consumes at least one character). -/
def pyUnquote (s : String) : String :=
  String.mk (pyUnquoteAux s.data.length s.data)

/-- Model of `_get_grpc_status`: reads `grpc-status` (default `"0"`) through
`int(...)` — which raises on a non-integer literal, modelled as `none` —
and `grpc-message` (default `""`) through `unquote`; ok iff code 0. -/
def getGrpcStatus (trailers : List (String × String)) : Option (Int × String × Bool) :=
  match parsePyInt ((dictGet trailers "grpc-status").getD "0") with
  | none => none
  | some code =>
    some (code, pyUnquote ((dictGet trailers "grpc-message").getD ""), decide (code = 0))

end Grok2Api

namespace Grok2Api

/-! ## Codec theorems -/

theorem parseFramesAux_nil (fuel : Nat) (msgs : List (List Nat))
    (trs : List (String × String)) : parseFramesAux fuel [] msgs trs = (msgs, trs) := by
  cases fuel <;> rfl

theorem unpack_pack_be32 (n : Nat) (h : n < 2 ^ 32) :
    unpackBE32 (n / 2 ^ 24 % 256) (n / 2 ^ 16 % 256) (n / 2 ^ 8 % 256) (n % 256) = n := by
  unfold unpackBE32
  omega

/-- C5: wire codec round-trip.  For every byte payload `P` (of
encodable length, i.e. below `2^32`, the bound enforced by
`struct.pack_into(">I", ...)`), decoding the encoding of `P` yields the
one-element message list `[P]` and an empty trailer mapping; the
encoding is a single frame of flag byte `0x00`, a 4-byte big-endian
length and the payload. -/
theorem grpc_web_codec_round_trip (P : List Nat) (h : P.length < 2 ^ 32) :
    parseGrpcWebResponse (encodeGrpcWebPayload P) = ([P], []) ∧
    encodeGrpcWebPayload P = 0x00 :: packBE32 P.length ++ P := by
  refine ⟨?_, rfl⟩
  unfold parseGrpcWebResponse encodeGrpcWebPayload packBE32
  simp only [List.length_cons, List.length_append, List.length_cons, List.length_nil]
  show parseFramesAux _ (0x00 :: (_ :: _ :: _ :: _ :: P)) [] [] = ([P], [])
  unfold parseFramesAux
  have hlen : unpackBE32 (P.length / 2 ^ 24 % 256) (P.length / 2 ^ 16 % 256)
      (P.length / 2 ^ 8 % 256) (P.length % 256) = P.length := unpack_pack_be32 P.length h
  simp only [hlen, le_refl, if_pos, List.take_length, List.drop_length]
  norm_num [parseFramesAux_nil]

/-- C5 witness: the round trip evaluated at the concrete payload `[1, 2, 3]`. -/
theorem grpc_web_codec_round_trip_witness :
    parseGrpcWebResponse (encodeGrpcWebPayload [1, 2, 3]) = ([[1, 2, 3]], []) :=
  (grpc_web_codec_round_trip [1, 2, 3] (by norm_num)).1

/-- C10: gRPC status extraction returns `(0, "", true)` when the
`grpc-status` key is absent (and in general is ok exactly for code 0,
as the `"grpc-status: 7"` trailer shows), but it is partial: a
`grpc-status` value that is not a valid integer literal makes `int(...)`
raise instead of returning a default or error result. -/
theorem grpc_status_default_and_partial :
    getGrpcStatus [] = some (0, "", true) ∧
    getGrpcStatus [("grpc-status", "abc")] = none ∧
    getGrpcStatus [("grpc-status", "7")] = some (7, "", false) := by
  refine ⟨?_, ?_, ?_⟩ <;> decide

/-! ## Resilient executor — `src/app/core/retry.py`

`async_request_with_retry` drives an attempt function through an outer
loop of `max_outer_retry + 1` iterations, each running an inner
403-retry loop of at most `max_403_retries + 1` attempts.  The attempt
function is modelled by the behaviour of its `n`-th invocation; sleeps
are recorded in tenths of a time-unit (`0.5s` → `5`, `(outer+1)*0.1s`
→ `outer + 1`); proxy-pool force refreshes are counted. -/

/-- Value returned by one attempt: either a plain success value (any
result that is not a dict carrying `"status_code"`) or a structured
outcome carrying an HTTP-like status code. -/
inductive PyResult where
  | success (v : Nat)
  | status (code : Nat)
deriving DecidableEq, Repr

/-- Behaviour of one invocation of the attempt function: return a
result, or raise a (non-business) exception. -/
inductive AttemptBehavior where
  | ret (r : PyResult)
  | throw
deriving DecidableEq, Repr

/-- Executor policy: keyword arguments of `async_request_with_retry`
plus the ambient proxy-pool enablement flag. -/
structure RetryConfig where
  max_outer_retry : Nat
  max_403_retries : Nat
  retry_codes : List Nat
  use_proxy_pool_for_403 : Bool
  pool_enabled : Bool
deriving DecidableEq, Repr

/-- Observable side effects of one executor run. -/
structure ExecTrace where
  calls : Nat
  sleeps : List Nat
  refreshes : Nat
deriving DecidableEq, Repr

/-- Overall executor outcome: a returned value (`none` models Python
returning `last_result = None`) or a re-raised exception. -/
inductive ExecResult where
  | returned (r : Option PyResult)
  | raised
deriving DecidableEq, Repr

/-- How the inner `while retry_403_count <= max_403_retries` loop ends:
`done` is a `return result` out of the whole function, `raised`
re-raises the attempt's exception, `toNextOuter` falls through to the
next outer iteration carrying the updated `last_result`. -/
inductive InnerOut where
  | done (r : PyResult)
  | raised
  | toNextOuter (last : Option PyResult)
deriving DecidableEq, Repr

/-- Proxy selection for one inner iteration (lines 55–59): a forced
proxy-pool refresh happens exactly when this is a 403 retry
(`retry_403_count > 0`) with proxy rotation enabled and the pool up. -/
def bumpRefresh (cfg : RetryConfig) (inner : Nat) (tr : ExecTrace) : ExecTrace :=
  if 0 < inner ∧ cfg.use_proxy_pool_for_403 = true ∧ cfg.pool_enabled = true then
    { tr with refreshes := tr.refreshes + 1 }
  else tr

/-- One invocation of the attempt function recorded in the trace. -/
def bumpCall (tr : ExecTrace) : ExecTrace :=
  { tr with calls := tr.calls + 1 }

/-- One recorded `asyncio.sleep`, in tenths of a time-unit. -/
def addSleep (tr : ExecTrace) (d : Nat) : ExecTrace :=
  { tr with sleeps := tr.sleeps ++ [d] }

@[simp] theorem bumpRefresh_calls (cfg : RetryConfig) (inner : Nat) (tr : ExecTrace) :
    (bumpRefresh cfg inner tr).calls = tr.calls := by
  unfold bumpRefresh; split <;> rfl

@[simp] theorem bumpRefresh_sleeps (cfg : RetryConfig) (inner : Nat) (tr : ExecTrace) :
    (bumpRefresh cfg inner tr).sleeps = tr.sleeps := by
  unfold bumpRefresh; split <;> rfl

@[simp] theorem bumpCall_calls (tr : ExecTrace) : (bumpCall tr).calls = tr.calls + 1 := rfl

@[simp] theorem addSleep_calls (tr : ExecTrace) (d : Nat) : (addSleep tr d).calls = tr.calls :=
  rfl

/-- Inner loop of `async_request_with_retry` (lines 53–114).  One fuel
unit per loop iteration; callers pass `max_403_retries + 1`, which
dominates the iteration count since `inner` rises by one whenever the
loop repeats.  The condition `outer + 1 < max_outer_retry` renders the
source's `outer_retry < max_outer_retry - 1` (Python arithmetic over
ints; both sides are non-negative here). -/
def innerLoop (cfg : RetryConfig) (f : Nat → AttemptBehavior) (outer : Nat) :
    Nat → Nat → Option PyResult → ExecTrace → InnerOut × ExecTrace
  | 0, _, last, tr => (.toNextOuter last, tr)
  | fuel + 1, inner, last, tr =>
    if cfg.max_403_retries < inner then
      -- `while`-`else` clause: `last_result = last_result or {"status_code": 403, ...}`
      (.toNextOuter (some (last.getD (.status 403))), tr)
    else
      match f (bumpRefresh cfg inner tr).calls with
      | .throw =>
        if outer + 1 < cfg.max_outer_retry then
          (.toNextOuter last, addSleep (bumpCall (bumpRefresh cfg inner tr)) 5)
        else (.raised, bumpCall (bumpRefresh cfg inner tr))
      | .ret (.success v) => (.done (.success v), bumpCall (bumpRefresh cfg inner tr))
      | .ret (.status code) =>
        if code = 403 ∧ cfg.use_proxy_pool_for_403 = true ∧ cfg.pool_enabled = true then
          if inner + 1 ≤ cfg.max_403_retries then
            innerLoop cfg f outer fuel (inner + 1) last
              (addSleep (bumpCall (bumpRefresh cfg inner tr)) 5)
          else (.toNextOuter (some (.status code)), bumpCall (bumpRefresh cfg inner tr))
        else if code ∈ cfg.retry_codes then
          if outer < cfg.max_outer_retry then
            (.toNextOuter (some (.status code)),
              addSleep (bumpCall (bumpRefresh cfg inner tr)) (outer + 1))
          else (.toNextOuter (some (.status code)), bumpCall (bumpRefresh cfg inner tr))
        else (.done (.status code), bumpCall (bumpRefresh cfg inner tr))

/-- Outer loop of `async_request_with_retry` (`for outer_retry in
range(max_outer_retry + 1)`), counting down the remaining iterations. -/
def outerLoop (cfg : RetryConfig) (f : Nat → AttemptBehavior) :
    Nat → Nat → Option PyResult → ExecTrace → ExecResult × ExecTrace
  | 0, _, last, tr => (.returned last, tr)
  | ofuel + 1, outer, last, tr =>
    match innerLoop cfg f outer (cfg.max_403_retries + 1) 0 last tr with
    | (.done r, tr') => (.returned (some r), tr')
    | (.raised, tr') => (.raised, tr')
    | (.toNextOuter last', tr') => outerLoop cfg f ofuel (outer + 1) last' tr'

/-- Model of `async_request_with_retry`: run the two-layer retry driver from a
fresh state. -/
def asyncRequestWithRetry (cfg : RetryConfig) (f : Nat → AttemptBehavior) :
    ExecResult × ExecTrace :=
  outerLoop cfg f (cfg.max_outer_retry + 1) 0 none ⟨0, [], 0⟩

/-- Defaults: `max_outer_retry=3`, `max_403_retries=5`, configured
retryable codes `[401, 429]`, proxy pool used for 403 and enabled. -/
def defaultRetryConfig : RetryConfig :=
  ⟨3, 5, [401, 429], true, true⟩

end Grok2Api

namespace Grok2Api

/-! ## Executor theorems -/

theorem innerLoop_calls_le (cfg : RetryConfig) (f : Nat → AttemptBehavior) (outer : Nat) :
    ∀ fuel inner last tr,
      (innerLoop cfg f outer fuel inner last tr).2.calls ≤ tr.calls + fuel := by
  intro fuel
  induction fuel with
  | zero => intro inner last tr; simp [innerLoop]
  | succ fuel ih =>
    intro inner last tr
    unfold innerLoop
    split
    · simp
    · rcases hb : f (bumpRefresh cfg inner tr).calls with r | _
      · rcases r with v | code
        · simp [hb]
        · simp only [hb]
          split
          · split
            · refine le_trans (ih _ _ _) ?_
              simp [addSleep, bumpCall]
              omega
            · simp
          · split
            · split <;> simp [addSleep, bumpCall]
            · simp
      · simp only [hb]
        split <;> simp [addSleep, bumpCall]

theorem outerLoop_calls_le (cfg : RetryConfig) (f : Nat → AttemptBehavior) :
    ∀ ofuel outer last tr,
      (outerLoop cfg f ofuel outer last tr).2.calls ≤
        tr.calls + ofuel * (cfg.max_403_retries + 1) := by
  intro ofuel
  induction ofuel with
  | zero => intro outer last tr; simp [outerLoop]
  | succ ofuel ih =>
    intro outer last tr
    unfold outerLoop
    have h1 := innerLoop_calls_le cfg f outer (cfg.max_403_retries + 1) 0 last tr
    rcases hinner : innerLoop cfg f outer (cfg.max_403_retries + 1) 0 last tr with ⟨out, tr'⟩
    rw [hinner] at h1
    cases out with
    | done r => simpa [hinner] using le_trans h1 (by ring_nf; omega)
    | raised => simpa [hinner] using le_trans h1 (by ring_nf; omega)
    | toNextOuter last' =>
      simp only [hinner]
      refine le_trans (ih (outer + 1) last' tr') ?_
      have : tr'.calls ≤ tr.calls + (cfg.max_403_retries + 1) := h1
      ring_nf
      omega

/-- C4: the executor invokes the attempt function at most
`(max_outer_retry + 1) * (max_403_retries + 1)` times, and with the
default policy an attempt that always returns a structured 403 outcome
is invoked exactly `4 * 6 = 24` times, after which the executor gives
up and returns the last remembered 403 outcome. -/
theorem executor_attempt_bound :
    (∀ (cfg : RetryConfig) (f : Nat → AttemptBehavior),
        (asyncRequestWithRetry cfg f).2.calls ≤
          (cfg.max_outer_retry + 1) * (cfg.max_403_retries + 1)) ∧
    (asyncRequestWithRetry defaultRetryConfig (fun _ => .ret (.status 403))).2.calls = 24 ∧
    (asyncRequestWithRetry defaultRetryConfig (fun _ => .ret (.status 403))).1 =
      .returned (some (.status 403)) := by
  refine ⟨fun cfg f => ?_, by decide, by decide⟩
  have h := outerLoop_calls_le cfg f (cfg.max_outer_retry + 1) 0 none ⟨0, [], 0⟩
  simpa [asyncRequestWithRetry] using h

/-- C8: an attempt whose first call returns a structured outcome with a
status that is neither 403 nor in the configured retryable set is
returned to the caller after exactly one invocation, with no sleeps and
no proxy refresh. -/
theorem executor_short_circuit (cfg : RetryConfig) (f : Nat → AttemptBehavior) (c : Nat)
    (hf : f 0 = .ret (.status c)) (h403 : c ≠ 403) (hr : c ∉ cfg.retry_codes) :
    asyncRequestWithRetry cfg f = (.returned (some (.status c)), ⟨1, [], 0⟩) := by
  unfold asyncRequestWithRetry outerLoop innerLoop
  simp [hf, hr, h403, bumpRefresh, bumpCall]

/-- C8 witness: status 400 under the default policy returns on the
first call with an empty sleep trace. -/
theorem executor_short_circuit_witness :
    asyncRequestWithRetry defaultRetryConfig (fun _ => .ret (.status 400)) =
      (.returned (some (.status 400)), ⟨1, [], 0⟩) :=
  executor_short_circuit defaultRetryConfig (fun _ => .ret (.status 400)) 400
    rfl (by decide) (by decide)

/-- C9: with the proxy pool disabled (or 403 proxy rotation turned
off) and the default retryable set `[401, 429]`, a structured 403
outcome never enters the inner 403-retry loop: it is returned to the
caller after the first attempt with no sleeps and no proxy refresh. -/
theorem executor_403_no_pool (cfg : RetryConfig) (f : Nat → AttemptBehavior)
    (hpool : cfg.use_proxy_pool_for_403 = false ∨ cfg.pool_enabled = false)
    (hcodes : cfg.retry_codes = [401, 429])
    (hf : f 0 = .ret (.status 403)) :
    asyncRequestWithRetry cfg f = (.returned (some (.status 403)), ⟨1, [], 0⟩) := by
  unfold asyncRequestWithRetry outerLoop innerLoop
  rcases hpool with h | h <;> simp [hf, hcodes, h, bumpRefresh, bumpCall]

/-- C2 counterexample: under the default policy (`max_outer_retry = 3`,
hence 4 allowed outer iterations), an attempt function that always
throws is re-raised after only 3 invocations and 2 backoff sleeps — the
exception escapes while one outer iteration of budget still remains
(the source tests `outer_retry < max_outer_retry - 1`, not
`< max_outer_retry`), so the claim "only when the outer budget is
exhausted is the exception re-raised" is false. -/
theorem executor_exception_early_reraise :
    asyncRequestWithRetry defaultRetryConfig (fun _ => .throw) = (.raised, ⟨3, [5, 5], 0⟩) ∧
    (asyncRequestWithRetry defaultRetryConfig (fun _ => .throw)).2.calls ≠
      defaultRetryConfig.max_outer_retry + 1 := by
  exact ⟨by decide, by decide⟩

theorem innerLoop_throw (cfg : RetryConfig) (f : Nat → AttemptBehavior) (outer : Nat)
    (hf : ∀ n, f n = .throw) (last : Option PyResult) (tr : ExecTrace) :
    innerLoop cfg f outer (cfg.max_403_retries + 1) 0 last tr =
      if outer + 1 < cfg.max_outer_retry then (.toNextOuter last, addSleep (bumpCall tr) 5)
      else (.raised, bumpCall tr) := by
  unfold innerLoop
  simp [hf, bumpRefresh]

theorem outerLoop_throw (cfg : RetryConfig) (f : Nat → AttemptBehavior)
    (hf : ∀ n, f n = .throw) :
    ∀ ofuel outer last tr, outer + ofuel = cfg.max_outer_retry + 1 →
      outer ≤ cfg.max_outer_retry →
      outerLoop cfg f ofuel outer last tr =
        (.raised,
          ⟨tr.calls + max 1 (cfg.max_outer_retry - outer),
           tr.sleeps ++ List.replicate (cfg.max_outer_retry - 1 - outer) 5,
           tr.refreshes⟩) := by
  intro ofuel
  induction ofuel with
  | zero => intro outer last tr hsum hle; omega
  | succ n ih =>
    intro outer last tr hsum hle
    by_cases hlt : outer + 1 < cfg.max_outer_retry
    · have hred : outerLoop cfg f (n + 1) outer last tr =
          outerLoop cfg f n (outer + 1) last (addSleep (bumpCall tr) 5) := by
        simp only [outerLoop]
        rw [innerLoop_throw cfg f outer hf last tr, if_pos hlt]
      rw [hred, ih (outer + 1) last (addSleep (bumpCall tr) 5) (by omega) (by omega)]
      have hcalls : (addSleep (bumpCall tr) 5).calls +
          max 1 (cfg.max_outer_retry - (outer + 1)) =
          tr.calls + max 1 (cfg.max_outer_retry - outer) := by
        simp only [addSleep, bumpCall]
        omega
      have hrep : cfg.max_outer_retry - 1 - outer =
          (cfg.max_outer_retry - 1 - (outer + 1)) + 1 := by omega
      have hsl : (addSleep (bumpCall tr) 5).sleeps ++
          List.replicate (cfg.max_outer_retry - 1 - (outer + 1)) 5 =
          tr.sleeps ++ List.replicate (cfg.max_outer_retry - 1 - outer) 5 := by
        rw [hrep, List.replicate_succ]
        simp [addSleep, bumpCall]
      simp only [Prod.mk.injEq, ExecTrace.mk.injEq, true_and]
      exact ⟨hcalls, hsl, rfl⟩
    · have hred : outerLoop cfg f (n + 1) outer last tr = (.raised, bumpCall tr) := by
        simp only [outerLoop]
        rw [innerLoop_throw cfg f outer hf last tr, if_neg hlt]
      rw [hred]
      have hmax : max 1 (cfg.max_outer_retry - outer) = 1 := by omega
      have hrep : cfg.max_outer_retry - 1 - outer = 0 := by omega
      simp [bumpCall, hmax, hrep]

/-- C2 amended: on a thrown non-business exception the executor sleeps
0.5 time-units and proceeds to the next outer iteration only while
`outer_retry < max_outer_retry - 1`; the exception is re-raised one
iteration before the outer budget of `max_outer_retry + 1` iterations
is exhausted.  An attempt function that always throws is therefore
invoked `max 1 max_outer_retry` times (not `max_outer_retry + 1`) with
`max_outer_retry - 1` sleeps of 0.5 before the exception escapes. -/
theorem executor_exception_retry_behavior (cfg : RetryConfig) (f : Nat → AttemptBehavior)
    (hf : ∀ n, f n = .throw) :
    asyncRequestWithRetry cfg f =
      (.raised,
        ⟨max 1 cfg.max_outer_retry, List.replicate (cfg.max_outer_retry - 1) 5, 0⟩) := by
  unfold asyncRequestWithRetry
  rw [outerLoop_throw cfg f hf (cfg.max_outer_retry + 1) 0 none ⟨0, [], 0⟩ (by omega) (by omega)]
  simp

/-- C2 amended witness: the always-throwing attempt under the default
policy, evaluated concretely. -/
theorem executor_exception_retry_behavior_witness :
    asyncRequestWithRetry defaultRetryConfig (fun _ => .throw) =
      (.raised, ⟨max 1 defaultRetryConfig.max_outer_retry,
        List.replicate (defaultRetryConfig.max_outer_retry - 1) 5, 0⟩) :=
  executor_exception_retry_behavior defaultRetryConfig (fun _ => .throw) (fun _ => rfl)

/-- C9 witness: default policy but with the proxy pool disabled. -/
theorem executor_403_no_pool_witness :
    asyncRequestWithRetry ⟨3, 5, [401, 429], true, false⟩ (fun _ => .ret (.status 403)) =
      (.returned (some (.status 403)), ⟨1, [], 0⟩) :=
  executor_403_no_pool ⟨3, 5, [401, 429], true, false⟩ (fun _ => .ret (.status 403))
    (Or.inr rfl) rfl rfl

end Grok2Api

namespace Grok2Api

/-! ## Streaming translation engine — `src/app/services/grok/processer.py`

`GrokResponseProcessor.process_stream` is modelled as a fold over the
decoded upstream lines.  One upstream line is either blank / malformed
/ an empty `result.response` object (all of which are skipped without
marking data received), an error frame, or a non-empty response object.
Clock instants are modelled as integers attached to each line (the two
clock reads within a single loop iteration are treated as one instant);
the `id` and `created` fields of an emitted chunk come from a fresh
UUID and the wall clock and are not modelled.  The `download_base64`
cache collaborator is a configuration parameter; in URL image mode the
emitted text is the same whether the best-effort cache warm succeeds or
raises, so that collaborator needs no parameter. -/

/-- Value of `grok_resp.get("token", "")`: a JSON string or a JSON
list (a list token is skipped by the conversation branch and, via the
chunk-validation failure swallowed by the per-line handler, emits
nothing in the image branch). -/
inductive TokenVal where
  | str (s : String)
  | list
deriving DecidableEq, Repr

/-- One entry of `webSearchResults.results`; `preview` is `""` when the
upstream value is not a string (matching the `isinstance` guard). -/
structure SearchItem where
  title : String
  url : String
  preview : String
deriving DecidableEq, Repr

/-- Model of `streamingVideoGenerationResponse`: `progress` is
`video_resp.get("progress", 0)` (absent field already defaulted to 0),
`videoUrl` is `none` when absent or empty (falsy). -/
structure VideoResp where
  progress : Int
  videoUrl : Option String
deriving DecidableEq, Repr

/-- A non-empty decoded `result.response` object.  `userModel` is
`userResponse.model` when present; `modelImages` is `some urls` when a
truthy `modelResponse` is present (with its `generatedImageUrls`,
defaulted to `[]`); `webResults` is `some items` when a truthy
`webSearchResults` is present (with its `results`, defaulted to `[]`). -/
structure GrokResp where
  userModel : Option String
  video : Option VideoResp
  imageAttachmentInfo : Bool
  token : TokenVal
  modelImages : Option (List String)
  isThinking : Bool
  messageTag : Option String
  toolCard : Bool
  webResults : Option (List SearchItem)
deriving DecidableEq, Repr

/-- A response object carrying only a plain conversation token. -/
def convResp (thinking : Bool) (tok : String) : GrokResp :=
  ⟨none, none, false, .str tok, none, thinking, none, false, none⟩

/-- A response object carrying only a video progress value. -/
def videoResp (p : Int) : GrokResp :=
  ⟨none, some ⟨p, none⟩, false, .str "", none, false, none, false, none⟩

/-- One upstream line as seen by the loop body: blank lines, JSON parse
failures and empty `result.response` objects all behave identically
(timeout check, then `continue` without `mark_received`). -/
inductive Line where
  | blank
  | errorLine (msg : String)
  | resp (r : GrokResp)
deriving DecidableEq, Repr

/-- One outbound unit: a delta chunk built by `make_chunk` (model name,
content, optional finish reason) or the literal terminal sentinel
`data: [DONE]`. -/
inductive Chunk where
  | delta (model : String) (content : String) (finish : Option String)
  | done
deriving DecidableEq, Repr

/-- How a finite run ends: normal completion (including graceful
timeout stops and image-mode termination) or a raised
`CONTENT_MODERATED` business exception. -/
inductive StreamResult where
  | finished
  | moderated
deriving DecidableEq, Repr

/-- How one download of `image_cache_service.download_base64` ends:
a returned string (`""` is falsy), or a raised exception. -/
inductive DlRes where
  | ok (s : String)
  | exn

/-- Configuration and collaborators of one streaming run:
`show_thinking`, `filtered_tags` (raw comma-separated config string),
the inbound base URL, `image_mode`, the three timeout settings, and the
base64 cache collaborator. -/
structure StreamCfg where
  show_thinking : Bool
  filtered_tags_raw : String
  base_url : String
  image_mode : String
  chunk_timeout : Int
  first_timeout : Int
  total_timeout : Int
  downloadBase64 : String → DlRes

/-- Model of `filtered_tags = setting.grok_config.get("filtered_tags", "").split(",")`. -/
def filteredTags (cfg : StreamCfg) : List String :=
  pySplit cfg.filtered_tags_raw ","

/-- Mutable state of one `process_stream` run (`StreamState`), timing
fields of the `StreamTimeoutManager` included. -/
structure PState where
  is_image : Bool
  is_thinking : Bool
  thinking_finished : Bool
  model : Option String
  video_progress_started : Bool
  last_video_progress : Int
  first_received : Bool
  start_time : Int
  last_chunk_time : Int
deriving DecidableEq, Repr

/-- Fresh state at stream start `t0` (`last_video_progress = -1`). -/
def initPState (t0 : Int) : PState :=
  ⟨false, false, false, none, false, -1, false, t0, t0⟩

/-- Model of `make_chunk`: the model name falls back to the literal default when
no `userResponse.model` has been seen yet. -/
def mkDelta (st : PState) (content : String) (finish : Option String) : Chunk :=
  .delta (st.model.getD "grok-4-mini-thinking-tahoe") content finish

/-- Model of `_image_proxy_url`: always the local `/images/` path. -/
def imageProxyUrl (cfg : StreamCfg) (p : String) : String :=
  if cfg.base_url ≠ "" then cfg.base_url ++ "/images/" ++ p else "/images/" ++ p

/-- Model of `_build_video_content`: best-effort cache warm (failure changes
nothing observable), then the embedded video tag. -/
def buildVideoContent (cfg : StreamCfg) (u : String) : String :=
  "<video src=\"" ++ imageProxyUrl cfg u ++
    "\" controls=\"controls\" width=\"500\" height=\"300\"></video>\n"

/-- One web search result rendered as a markdown link line. -/
def fmtSearchItem (it : SearchItem) : String :=
  "\n- [" ++ it.title ++ "](" ++ it.url ++ " \"" ++ pyReplace it.preview "\n" "" ++ "\")"

/-- Model of `StreamTimeoutManager.check_timeout` (lines 35–48). -/
def checkTimeout (cfg : StreamCfg) (st : PState) (now : Int) : Bool :=
  (!st.first_received && decide (cfg.first_timeout < now - st.start_time)) ||
  (decide (0 < cfg.total_timeout) && decide (cfg.total_timeout < now - st.start_time)) ||
  (st.first_received && decide (cfg.chunk_timeout < now - st.last_chunk_time))

/-- Slices `s[i:i+8192]` of Python's 8 KB base64 sub-chunking. -/
def chunks8192 (l : List Char) : List (List Char) :=
  match l with
  | [] => []
  | c :: cs => (c :: cs).take 8192 :: chunks8192 ((c :: cs).drop 8192)
termination_by l.length
decreasing_by simp; omega

/-- Python `s.split(",", 1)`: `some (before, after)` when a comma is
present, `none` otherwise. -/
def splitOnceAux : List Char → Option (List Char × List Char)
  | [] => none
  | c :: rest =>
    if c = ',' then some ([], rest)
    else (splitOnceAux rest).map (fun p => (c :: p.1, p.2))

/-- Handling of one generated image reference (loop body of lines
256–286): returns the immediately yielded chunks and the text appended
to the deferred `content` accumulator. -/
def imageChunksForUrl (cfg : StreamCfg) (st : PState) (img : String) :
    List Chunk × String :=
  if cfg.image_mode = "base64" then
    match cfg.downloadBase64 ("/" ++ img) with
    | .exn => ([], "![Generated Image](" ++ imageProxyUrl cfg img ++ ")\n\n")
    | .ok s =>
      if s ≠ "" then
        if !("data:".data.isPrefixOf s.data) then
          match splitOnceAux s.data with
          | some (a, b) =>
            ([mkDelta st ("![Generated Image](data:" ++ String.mk a ++ ",") none] ++
              (chunks8192 b).map (fun part => mkDelta st (String.mk part) none) ++
              [mkDelta st ")\n" none], "")
          | none =>
            ([mkDelta st ("![Generated Image](" ++ s ++ ")\n") none], "")
        else ([mkDelta st ("![Generated Image](" ++ s ++ ")\n") none], "")
      else ([mkDelta st ("![Generated Image](" ++ imageProxyUrl cfg img ++ ")\n") none], "")
  else
    -- URL mode: best-effort cache warm; the appended line is identical
    -- on success and on exception (lines 282–286)
    ([], "![Generated Image](" ++ imageProxyUrl cfg img ++ ")\n\n")

/-- Image branch (lines 251–293).  With a truthy `modelResponse` the
stream emits all images, a blank-line-framed content chunk and a stop
chunk, then returns (the `Bool` result signals the `return`);
otherwise a non-empty string token is forwarded as-is. -/
def imageStep (cfg : StreamCfg) (st : PState) (r : GrokResp) :
    PState × List Chunk × Bool :=
  match r.modelImages with
  | some imgs =>
    let pieces := (imgs.filter (fun i => i ≠ "")).map (imageChunksForUrl cfg st)
    let yielded := (pieces.map Prod.fst).flatten
    let content := String.join (pieces.map Prod.snd)
    (st, yielded ++ [mkDelta st ("\n\n" ++ pyStrip content ++ "\n") none,
      mkDelta st "" (some "stop")], true)
  | none =>
    match r.token with
    | .str tok => if tok ≠ "" then (st, [mkDelta st tok none], false) else (st, [], false)
    | .list => (st, [], false)

/-- Search-result enrichment (lines 310–326): the token survives and is
possibly extended with formatted link lines; `none` models the
`continue` paths. -/
def searchToken (cfg : StreamCfg) (r : GrokResp) (tok0 : String) : Option String :=
  if r.toolCard then
    match r.webResults with
    | some ws =>
      if r.isThinking then
        if cfg.show_thinking then
          some (tok0 ++ String.join (ws.map fmtSearchItem) ++ "\n")
        else none
      else none
    | none => none
  else some tok0

/-- Header-tagged tokens get surrounding blank lines (lines 331–332). -/
def headerWrap (r : GrokResp) (tok : String) : String :=
  if r.messageTag == some "header" then "\n\n" ++ tok ++ "\n\n" else tok

/-- Conversation branch (lines 296–352). -/
def convStep (cfg : StreamCfg) (st : PState) (r : GrokResp) : PState × List Chunk :=
  match r.token with
  | .list => (st, [])
  | .str tok0 =>
    if tok0 ≠ "" && (filteredTags cfg).any (fun tag => pyInStr tag tok0) then (st, [])
    else if st.thinking_finished && r.isThinking then (st, [])
    else
      match searchToken cfg r tok0 with
      | none => (st, [])
      | some tok =>
        if tok = "" then (st, [])
        else
          if !st.is_thinking && r.isThinking then
            if cfg.show_thinking then
              ({ st with is_thinking := r.isThinking },
                [mkDelta st ("<think>\n" ++ headerWrap r tok) none])
            else ({ st with is_thinking := r.isThinking }, [])
          else if st.is_thinking && !r.isThinking then
            ({ st with thinking_finished := true, is_thinking := r.isThinking },
              [mkDelta st (if cfg.show_thinking then "\n</think>\n" ++ headerWrap r tok
                else headerWrap r tok) none])
          else if r.isThinking then
            ({ st with is_thinking := r.isThinking },
              if cfg.show_thinking then [mkDelta st (headerWrap r tok) none] else [])
          else ({ st with is_thinking := r.isThinking }, [mkDelta st (headerWrap r tok) none])

/-- Model-name update from `userResponse` (lines 214–216). -/
def applyUserModel (st : PState) (r : GrokResp) : PState :=
  match r.userModel with
  | some m => { st with model := some m }
  | none => st

/-- Image-mode latch (lines 245–246). -/
def applyImageFlag (st : PState) (r : GrokResp) : PState :=
  if r.imageAttachmentInfo then { st with is_image := true } else st

/-- Video progress coalescing (lines 223–234): only a progress value
strictly above `last_video_progress` produces output, formatted with
thinking markers when "show thinking" is on, and suppressed entirely
otherwise (the progress latch still advances). -/
def videoProgressStep (cfg : StreamCfg) (st : PState) (v : VideoResp) :
    PState × List Chunk :=
  if st.last_video_progress < v.progress then
    if cfg.show_thinking then
      if !st.video_progress_started then
        ({ st with last_video_progress := v.progress, video_progress_started := true },
          [mkDelta st ("<think>视频已生成" ++ toString v.progress ++ "%\n") none])
      else if v.progress < 100 then
        ({ st with last_video_progress := v.progress },
          [mkDelta st ("视频已生成" ++ toString v.progress ++ "%\n") none])
      else
        ({ st with last_video_progress := v.progress },
          [mkDelta st ("视频已生成" ++ toString v.progress ++ "%</think>\n") none])
    else ({ st with last_video_progress := v.progress }, [])
  else (st, [])

/-- Video branch (lines 219–242): progress handling followed by the
optional completed-video embed, then `continue`. -/
def videoStep (cfg : StreamCfg) (st : PState) (v : VideoResp) : PState × List Chunk :=
  ((videoProgressStep cfg st v).1,
    (videoProgressStep cfg st v).2 ++
      (match v.videoUrl with
        | some u => [mkDelta (videoProgressStep cfg st v).1 (buildVideoContent cfg u) none]
        | none => []))

/-- Body of the per-line processing for a non-empty response object
(lines 213–352), after `mark_received`.  Returns the successor state,
the yielded chunks, and whether the generator returned. -/
def processResp (cfg : StreamCfg) (st0 : PState) (r : GrokResp) :
    PState × List Chunk × Bool :=
  match r.video with
  | some v =>
    ((videoStep cfg (applyUserModel st0 r) v).1,
      (videoStep cfg (applyUserModel st0 r) v).2, false)
  | none =>
    if (applyImageFlag (applyUserModel st0 r) r).is_image then
      imageStep cfg (applyImageFlag (applyUserModel st0 r) r) r
    else
      ((convStep cfg (applyImageFlag (applyUserModel st0 r) r) r).1,
        (convStep cfg (applyImageFlag (applyUserModel st0 r) r) r).2, false)

end Grok2Api

namespace Grok2Api

/-- The streaming loop (lines 179–364) over timestamped lines: the
timeout check runs first on every received line and gracefully emits a
stop chunk plus the terminal sentinel; a `content-moderated` error
frame raises (business exception, chunks yielded so far stand); any
other error frame emits an error chunk, a stop reason and the sentinel;
a non-empty response object marks data received and is processed by
`processResp`.  Exhausting the line sequence emits the normal stop
chunk and sentinel. -/
def markReceived (st : PState) (t : Int) : PState :=
  { st with first_received := true, last_chunk_time := t }

def runStream (cfg : StreamCfg) (st : PState) :
    List (Int × Line) → List Chunk × StreamResult
  | [] => ([mkDelta st "" (some "stop"), .done], .finished)
  | (t, ln) :: rest =>
    if checkTimeout cfg st t then
      ([mkDelta st "" (some "stop"), .done], .finished)
    else
      match ln with
      | .blank => runStream cfg st rest
      | .errorLine msg =>
        if pyInStr "content-moderated" (pyLower msg) then ([], .moderated)
        else ([mkDelta st ("Error: " ++ msg) (some "stop"), .done], .finished)
      | .resp r =>
        if (processResp cfg (markReceived st t) r).2.2 then
          ((processResp cfg (markReceived st t) r).2.1, .finished)
        else
          ((processResp cfg (markReceived st t) r).2.1 ++
            (runStream cfg (processResp cfg (markReceived st t) r).1 rest).1,
           (runStream cfg (processResp cfg (markReceived st t) r).1 rest).2)

/-- Envelope-level fold of the engine (the loop body on non-empty
response objects, timing aside): successor state and concatenated
output, stopping early when a branch returns. -/
def processAll (cfg : StreamCfg) (st : PState) : List GrokResp → PState × List Chunk
  | [] => (st, [])
  | r :: rest =>
    if (processResp cfg st r).2.2 then ((processResp cfg st r).1, (processResp cfg st r).2.1)
    else
      ((processAll cfg (processResp cfg st r).1 rest).1,
        (processResp cfg st r).2.1 ++ (processAll cfg (processResp cfg st r).1 rest).2)

/-- Number of steps at which the engine enters thinking mode
(`is_thinking` flips from `false` to `true`); with "show thinking"
enabled these are exactly the steps that emit the opening `<think>`
marker. -/
def countOpens (cfg : StreamCfg) (st : PState) : List GrokResp → Nat
  | [] => 0
  | r :: rest =>
    (if !st.is_thinking && (processResp cfg st r).1.is_thinking then 1 else 0) +
      (if (processResp cfg st r).2.2 then 0
        else countOpens cfg (processResp cfg st r).1 rest)

/-- Number of steps at which the engine leaves thinking mode
(`is_thinking` flips from `true` to `false`); with "show thinking"
enabled these are exactly the steps that emit the closing `</think>`
marker. -/
def countCloses (cfg : StreamCfg) (st : PState) : List GrokResp → Nat
  | [] => 0
  | r :: rest =>
    (if st.is_thinking && !(processResp cfg st r).1.is_thinking then 1 else 0) +
      (if (processResp cfg st r).2.2 then 0
        else countCloses cfg (processResp cfg st r).1 rest)

end Grok2Api

namespace Grok2Api

/-! ## Streaming engine lemmas -/

@[simp] theorem applyUserModel_is_thinking (st : PState) (r : GrokResp) :
    (applyUserModel st r).is_thinking = st.is_thinking := by
  unfold applyUserModel; cases r.userModel <;> rfl

@[simp] theorem applyUserModel_thinking_finished (st : PState) (r : GrokResp) :
    (applyUserModel st r).thinking_finished = st.thinking_finished := by
  unfold applyUserModel; cases r.userModel <;> rfl

@[simp] theorem applyUserModel_is_image (st : PState) (r : GrokResp) :
    (applyUserModel st r).is_image = st.is_image := by
  unfold applyUserModel; cases r.userModel <;> rfl

@[simp] theorem applyUserModel_last_video (st : PState) (r : GrokResp) :
    (applyUserModel st r).last_video_progress = st.last_video_progress := by
  unfold applyUserModel; cases r.userModel <;> rfl

@[simp] theorem applyImageFlag_is_thinking (st : PState) (r : GrokResp) :
    (applyImageFlag st r).is_thinking = st.is_thinking := by
  unfold applyImageFlag; split <;> rfl

@[simp] theorem applyImageFlag_thinking_finished (st : PState) (r : GrokResp) :
    (applyImageFlag st r).thinking_finished = st.thinking_finished := by
  unfold applyImageFlag; split <;> rfl

theorem imageStep_state (cfg : StreamCfg) (st : PState) (r : GrokResp) :
    (imageStep cfg st r).1 = st := by
  unfold imageStep
  cases r.modelImages with
  | some imgs => rfl
  | none =>
    cases r.token with
    | str tok => dsimp only; split <;> rfl
    | list => rfl

@[simp] theorem videoProgressStep_is_thinking (cfg : StreamCfg) (st : PState) (v : VideoResp) :
    (videoProgressStep cfg st v).1.is_thinking = st.is_thinking := by
  unfold videoProgressStep
  split <;> (try split) <;> (try split) <;> (try split) <;> rfl

@[simp] theorem videoProgressStep_thinking_finished (cfg : StreamCfg) (st : PState)
    (v : VideoResp) :
    (videoProgressStep cfg st v).1.thinking_finished = st.thinking_finished := by
  unfold videoProgressStep
  split <;> (try split) <;> (try split) <;> (try split) <;> rfl

/-- State transition characterization of the conversation branch:
either the step is a no-op (one of the `continue` paths), or the flags
move as the source transitions dictate. -/
theorem convStep_chars (cfg : StreamCfg) (st : PState) (r : GrokResp) :
    convStep cfg st r = (st, []) ∨
    ((st.thinking_finished && r.isThinking) = false ∧
      (convStep cfg st r).1.is_thinking = r.isThinking ∧
      (convStep cfg st r).1.thinking_finished =
        (st.thinking_finished || (st.is_thinking && !r.isThinking)) ∧
      (convStep cfg st r).1.is_image = st.is_image) := by
  unfold convStep
  cases htok : r.token with
  | list => exact Or.inl rfl
  | str tok0 =>
    dsimp only
    cases hsk : searchToken cfg r tok0 with
    | none => dsimp only; split_ifs <;> exact Or.inl rfl
    | some tok =>
      dsimp only
      cases hA : st.is_thinking <;> cases hB : st.thinking_finished <;>
        cases hC : r.isThinking <;>
        simp only [hA, hB, hC, Bool.true_and, Bool.false_and, Bool.and_true, Bool.and_false,
          Bool.not_true, Bool.not_false, Bool.false_or, Bool.or_false] <;>
        split_ifs <;>
        first
        | exact Or.inl rfl
        | (right; simp_all)

/-- With the thinking latch closed, any thinking-tagged envelope is a
no-op in the conversation branch. -/
theorem convStep_suppressed (cfg : StreamCfg) (st : PState) (r : GrokResp)
    (hf : st.thinking_finished = true) (hth : r.isThinking = true) :
    convStep cfg st r = (st, []) := by
  unfold convStep
  cases htok : r.token with
  | list => rfl
  | str tok0 => dsimp only; simp [hf, hth]

/-- Flag dynamics of a full per-envelope step: either both thinking
flags are untouched, or the envelope reached the conversation branch
transitions. -/
theorem processResp_state_chars (cfg : StreamCfg) (st : PState) (r : GrokResp) :
    ((processResp cfg st r).1.is_thinking = st.is_thinking ∧
      (processResp cfg st r).1.thinking_finished = st.thinking_finished) ∨
    ((st.thinking_finished && r.isThinking) = false ∧
      (processResp cfg st r).1.is_thinking = r.isThinking ∧
      (processResp cfg st r).1.thinking_finished =
        (st.thinking_finished || (st.is_thinking && !r.isThinking))) := by
  unfold processResp
  cases hv : r.video with
  | some v =>
    left
    dsimp only
    simp [videoStep]
  | none =>
    dsimp only
    split
    · left
      rw [imageStep_state]
      simp
    · dsimp only
      rcases convStep_chars cfg (applyImageFlag (applyUserModel st r) r) r with h | ⟨h1, h2, h3, h4⟩
      · left
        rw [h]
        simp
      · right
        simp only [applyImageFlag_is_thinking, applyUserModel_is_thinking,
          applyImageFlag_thinking_finished, applyUserModel_thinking_finished] at h1 h2 h3
        exact ⟨h1, h2, h3⟩

end Grok2Api

namespace Grok2Api

/-- A closed latch plus a thinking-tagged envelope is a complete no-op
apart from the model-name update: nothing is emitted and the generator
does not return. -/
theorem processResp_suppressed (cfg : StreamCfg) (st : PState) (r : GrokResp)
    (hf : st.thinking_finished = true) (hth : r.isThinking = true) (hv : r.video = none)
    (hflag : r.imageAttachmentInfo = false) (himg : st.is_image = false) :
    processResp cfg st r = (applyUserModel st r, [], false) := by
  unfold processResp
  rw [hv]
  dsimp only
  have hX : applyImageFlag (applyUserModel st r) r = applyUserModel st r := by
    simp [applyImageFlag, hflag]
  rw [hX, if_neg (by simp [himg]), convStep_suppressed cfg (applyUserModel st r) r
    (by simp [hf]) hth]

theorem convStep_open_out (cfg : StreamCfg) (st : PState) (r : GrokResp)
    (hA : st.is_thinking = false) (hshow : cfg.show_thinking = true) :
    (convStep cfg st r).1.is_thinking = true →
    ∃ tok, (convStep cfg st r).2 = [mkDelta st ("<think>\n" ++ headerWrap r tok) none] := by
  unfold convStep
  cases htok : r.token with
  | list => intro h2; rw [hA] at h2; cases h2
  | str tok0 =>
    dsimp only
    cases hsk : searchToken cfg r tok0 with
    | none => dsimp only; split_ifs <;> intro h2 <;> rw [hA] at h2 <;> cases h2
    | some tok =>
      dsimp only
      cases hC : r.isThinking <;>
        simp only [hA, hC, hshow, Bool.not_false, Bool.not_true, Bool.true_and, Bool.and_true,
          Bool.and_false, Bool.false_and] <;>
        split_ifs <;> intro h2 <;>
        first
        | exact ⟨tok, rfl⟩
        | (revert h2; simp [hA])

theorem convStep_close_out (cfg : StreamCfg) (st : PState) (r : GrokResp)
    (hA : st.is_thinking = true) (hshow : cfg.show_thinking = true) :
    (convStep cfg st r).1.is_thinking = false →
    ∃ tok, (convStep cfg st r).2 = [mkDelta st ("\n</think>\n" ++ headerWrap r tok) none] := by
  unfold convStep
  cases htok : r.token with
  | list => intro h2; rw [hA] at h2; cases h2
  | str tok0 =>
    dsimp only
    cases hsk : searchToken cfg r tok0 with
    | none => dsimp only; split_ifs <;> intro h2 <;> rw [hA] at h2 <;> cases h2
    | some tok =>
      dsimp only
      cases hC : r.isThinking <;>
        simp only [hA, hC, hshow, Bool.not_false, Bool.not_true, Bool.true_and, Bool.and_true,
          Bool.and_false, Bool.false_and] <;>
        split_ifs <;> intro h2 <;>
        first
        | exact ⟨tok, rfl⟩
        | (revert h2; simp [hA])

/-- With "show thinking" enabled, a step that flips the engine into
thinking mode emits exactly one chunk, prefixed with the opening
marker. -/
theorem processResp_open_out (cfg : StreamCfg) (st : PState) (r : GrokResp)
    (hshow : cfg.show_thinking = true) (hA : st.is_thinking = false)
    (h2 : (processResp cfg st r).1.is_thinking = true) :
    ∃ m tok, (processResp cfg st r).2.1 =
      [Chunk.delta m ("<think>\n" ++ headerWrap r tok) none] := by
  revert h2
  unfold processResp
  cases hv : r.video with
  | some v =>
    dsimp only
    intro h2
    simp [videoStep, hA] at h2
  | none =>
    dsimp only
    split
    · intro h2
      rw [imageStep_state] at h2
      simp [hA] at h2
    · dsimp only
      intro h2
      rcases convStep_open_out cfg (applyImageFlag (applyUserModel st r) r) r
          (by simp [hA]) hshow h2 with ⟨tok, hout⟩
      exact ⟨(applyImageFlag (applyUserModel st r) r).model.getD "grok-4-mini-thinking-tahoe",
        tok, hout⟩

/-- With "show thinking" enabled, a step that flips the engine out of
thinking mode emits exactly one chunk, prefixed with the closing
marker. -/
theorem processResp_close_out (cfg : StreamCfg) (st : PState) (r : GrokResp)
    (hshow : cfg.show_thinking = true) (hA : st.is_thinking = true)
    (h2 : (processResp cfg st r).1.is_thinking = false) :
    ∃ m tok, (processResp cfg st r).2.1 =
      [Chunk.delta m ("\n</think>\n" ++ headerWrap r tok) none] := by
  revert h2
  unfold processResp
  cases hv : r.video with
  | some v =>
    dsimp only
    intro h2
    simp [videoStep, hA] at h2
  | none =>
    dsimp only
    split
    · intro h2
      rw [imageStep_state] at h2
      simp [hA] at h2
    · dsimp only
      intro h2
      rcases convStep_close_out cfg (applyImageFlag (applyUserModel st r) r) r
          (by simp [hA]) hshow h2 with ⟨tok, hout⟩
      exact ⟨(applyImageFlag (applyUserModel st r) r).model.getD "grok-4-mini-thinking-tahoe",
        tok, hout⟩

end Grok2Api

namespace Grok2Api

theorem countOpens_aux (cfg : StreamCfg) :
    ∀ rs (st : PState),
      (st.thinking_finished = true → st.is_thinking = false → countOpens cfg st rs = 0) ∧
      (st.is_thinking = true → st.thinking_finished = false → countOpens cfg st rs = 0) ∧
      (st.is_thinking = false → st.thinking_finished = false → countOpens cfg st rs ≤ 1) := by
  intro rs
  induction rs with
  | nil =>
    intro st
    exact ⟨fun _ _ => rfl, fun _ _ => rfl, fun _ _ => by simp [countOpens]⟩
  | cons r rest ih =>
    intro st
    have flags : ∀ bi bf : Bool, (processResp cfg st r).1.is_thinking = bi →
        (processResp cfg st r).1.thinking_finished = bf →
        (if (processResp cfg st r).2.2 = true then 0
          else countOpens cfg (processResp cfg st r).1 rest) ≤
          countOpens cfg (processResp cfg st r).1 rest := by
      intro _ _ _ _
      split
      · exact Nat.zero_le _
      · exact le_refl _
    refine ⟨?_, ?_, ?_⟩
    · intro hf ht
      unfold countOpens
      have key : (processResp cfg st r).1.is_thinking = false ∧
          (processResp cfg st r).1.thinking_finished = true := by
        rcases processResp_state_chars cfg st r with ⟨h1, h2⟩ | ⟨hfin, h1, h2⟩
        · exact ⟨by rw [h1]; exact ht, by rw [h2]; exact hf⟩
        · have hC : r.isThinking = false := by
            revert hfin; rw [hf]; cases r.isThinking <;> simp
          exact ⟨by rw [h1, hC], by rw [h2, hf]; simp⟩
      have hrec := (ih (processResp cfg st r).1).1 key.2 key.1
      have hind : (if (!st.is_thinking && (processResp cfg st r).1.is_thinking) = true
          then 1 else 0) = 0 := by simp [key.1]
      have hcnt : (if (processResp cfg st r).2.2 = true then 0
          else countOpens cfg (processResp cfg st r).1 rest) = 0 := by
        split
        · rfl
        · exact hrec
      omega
    · intro hi hf
      unfold countOpens
      have key : ((processResp cfg st r).1.is_thinking = true ∧
            (processResp cfg st r).1.thinking_finished = false) ∨
          ((processResp cfg st r).1.is_thinking = false ∧
            (processResp cfg st r).1.thinking_finished = true) := by
        rcases processResp_state_chars cfg st r with ⟨h1, h2⟩ | ⟨hfin, h1, h2⟩
        · exact Or.inl ⟨by rw [h1]; exact hi, by rw [h2]; exact hf⟩
        · cases hC : r.isThinking
          · exact Or.inr ⟨by rw [h1, hC], by rw [h2, hi, hC]; simp⟩
          · exact Or.inl ⟨by rw [h1, hC], by rw [h2, hf, hi, hC]; simp⟩
      have hind : (if (!st.is_thinking && (processResp cfg st r).1.is_thinking) = true
          then 1 else 0) = 0 := by simp [hi]
      have hrec : countOpens cfg (processResp cfg st r).1 rest = 0 := by
        rcases key with ⟨h1, h2⟩ | ⟨h1, h2⟩
        · exact (ih (processResp cfg st r).1).2.1 h1 h2
        · exact (ih (processResp cfg st r).1).1 h2 h1
      have hcnt : (if (processResp cfg st r).2.2 = true then 0
          else countOpens cfg (processResp cfg st r).1 rest) = 0 := by
        split
        · rfl
        · exact hrec
      omega
    · intro hi hf
      unfold countOpens
      rcases processResp_state_chars cfg st r with ⟨h1, h2⟩ | ⟨hfin, h1, h2⟩
      · have h1' : (processResp cfg st r).1.is_thinking = false := by rw [h1]; exact hi
        have h2' : (processResp cfg st r).1.thinking_finished = false := by rw [h2]; exact hf
        have hrec := (ih (processResp cfg st r).1).2.2 h1' h2'
        have hind : (if (!st.is_thinking && (processResp cfg st r).1.is_thinking) = true
            then 1 else 0) = 0 := by simp [h1']
        have hcnt : (if (processResp cfg st r).2.2 = true then 0
            else countOpens cfg (processResp cfg st r).1 rest) ≤ 1 := by
          split
          · exact Nat.zero_le 1
          · exact hrec
        omega
      · cases hC : r.isThinking
        · have h1' : (processResp cfg st r).1.is_thinking = false := by rw [h1, hC]
          have h2' : (processResp cfg st r).1.thinking_finished = false := by
            rw [h2, hf, hi, hC]; simp
          have hrec := (ih (processResp cfg st r).1).2.2 h1' h2'
          have hind : (if (!st.is_thinking && (processResp cfg st r).1.is_thinking) = true
              then 1 else 0) = 0 := by simp [h1']
          have hcnt : (if (processResp cfg st r).2.2 = true then 0
              else countOpens cfg (processResp cfg st r).1 rest) ≤ 1 := by
            split
            · exact Nat.zero_le 1
            · exact hrec
          omega
        · have h1' : (processResp cfg st r).1.is_thinking = true := by rw [h1, hC]
          have h2' : (processResp cfg st r).1.thinking_finished = false := by
            rw [h2, hf, hi, hC]; simp
          have hrec := (ih (processResp cfg st r).1).2.1 h1' h2'
          have hind : (if (!st.is_thinking && (processResp cfg st r).1.is_thinking) = true
              then 1 else 0) = 1 := by simp [hi, h1']
          have hcnt : (if (processResp cfg st r).2.2 = true then 0
              else countOpens cfg (processResp cfg st r).1 rest) = 0 := by
            split
            · rfl
            · exact hrec
          omega

theorem countCloses_aux (cfg : StreamCfg) :
    ∀ rs (st : PState),
      (st.thinking_finished = true → st.is_thinking = false → countCloses cfg st rs = 0) ∧
      (st.is_thinking = true → st.thinking_finished = false → countCloses cfg st rs ≤ 1) ∧
      (st.is_thinking = false → st.thinking_finished = false → countCloses cfg st rs ≤ 1) := by
  intro rs
  induction rs with
  | nil =>
    intro st
    exact ⟨fun _ _ => rfl, fun _ _ => by simp [countCloses], fun _ _ => by simp [countCloses]⟩
  | cons r rest ih =>
    intro st
    refine ⟨?_, ?_, ?_⟩
    · intro hf ht
      unfold countCloses
      have key : (processResp cfg st r).1.is_thinking = false ∧
          (processResp cfg st r).1.thinking_finished = true := by
        rcases processResp_state_chars cfg st r with ⟨h1, h2⟩ | ⟨hfin, h1, h2⟩
        · exact ⟨by rw [h1]; exact ht, by rw [h2]; exact hf⟩
        · have hC : r.isThinking = false := by
            revert hfin; rw [hf]; cases r.isThinking <;> simp
          exact ⟨by rw [h1, hC], by rw [h2, hf]; simp⟩
      have hrec := (ih (processResp cfg st r).1).1 key.2 key.1
      have hind : (if (st.is_thinking && !(processResp cfg st r).1.is_thinking) = true
          then 1 else 0) = 0 := by simp [ht]
      have hcnt : (if (processResp cfg st r).2.2 = true then 0
          else countCloses cfg (processResp cfg st r).1 rest) = 0 := by
        split
        · rfl
        · exact hrec
      omega
    · intro hi hf
      unfold countCloses
      rcases processResp_state_chars cfg st r with ⟨h1, h2⟩ | ⟨hfin, h1, h2⟩
      · have h1' : (processResp cfg st r).1.is_thinking = true := by rw [h1]; exact hi
        have h2' : (processResp cfg st r).1.thinking_finished = false := by rw [h2]; exact hf
        have hrec := (ih (processResp cfg st r).1).2.1 h1' h2'
        have hind : (if (st.is_thinking && !(processResp cfg st r).1.is_thinking) = true
            then 1 else 0) = 0 := by simp [h1']
        have hcnt : (if (processResp cfg st r).2.2 = true then 0
            else countCloses cfg (processResp cfg st r).1 rest) ≤ 1 := by
          split
          · exact Nat.zero_le 1
          · exact hrec
        omega
      · cases hC : r.isThinking
        · have h1' : (processResp cfg st r).1.is_thinking = false := by rw [h1, hC]
          have h2' : (processResp cfg st r).1.thinking_finished = true := by
            rw [h2, hi, hC]; simp
          have hrec := (ih (processResp cfg st r).1).1 h2' h1'
          have hind : (if (st.is_thinking && !(processResp cfg st r).1.is_thinking) = true
              then 1 else 0) = 1 := by simp [hi, h1']
          have hcnt : (if (processResp cfg st r).2.2 = true then 0
              else countCloses cfg (processResp cfg st r).1 rest) = 0 := by
            split
            · rfl
            · exact hrec
          omega
        · have h1' : (processResp cfg st r).1.is_thinking = true := by rw [h1, hC]
          have h2' : (processResp cfg st r).1.thinking_finished = false := by
            rw [h2, hf, hi, hC]; simp
          have hrec := (ih (processResp cfg st r).1).2.1 h1' h2'
          have hind : (if (st.is_thinking && !(processResp cfg st r).1.is_thinking) = true
              then 1 else 0) = 0 := by simp [h1']
          have hcnt : (if (processResp cfg st r).2.2 = true then 0
              else countCloses cfg (processResp cfg st r).1 rest) ≤ 1 := by
            split
            · exact Nat.zero_le 1
            · exact hrec
          omega
    · intro hi hf
      unfold countCloses
      have hind : (if (st.is_thinking && !(processResp cfg st r).1.is_thinking) = true
          then 1 else 0) = 0 := by simp [hi]
      rcases processResp_state_chars cfg st r with ⟨h1, h2⟩ | ⟨hfin, h1, h2⟩
      · have h1' : (processResp cfg st r).1.is_thinking = false := by rw [h1]; exact hi
        have h2' : (processResp cfg st r).1.thinking_finished = false := by rw [h2]; exact hf
        have hrec := (ih (processResp cfg st r).1).2.2 h1' h2'
        have hcnt : (if (processResp cfg st r).2.2 = true then 0
            else countCloses cfg (processResp cfg st r).1 rest) ≤ 1 := by
          split
          · exact Nat.zero_le 1
          · exact hrec
        omega
      · cases hC : r.isThinking
        · have h1' : (processResp cfg st r).1.is_thinking = false := by rw [h1, hC]
          have h2' : (processResp cfg st r).1.thinking_finished = false := by
            rw [h2, hf, hi, hC]; simp
          have hrec := (ih (processResp cfg st r).1).2.2 h1' h2'
          have hcnt : (if (processResp cfg st r).2.2 = true then 0
              else countCloses cfg (processResp cfg st r).1 rest) ≤ 1 := by
            split
            · exact Nat.zero_le 1
            · exact hrec
          omega
        · have h1' : (processResp cfg st r).1.is_thinking = true := by rw [h1, hC]
          have h2' : (processResp cfg st r).1.thinking_finished = false := by
            rw [h2, hf, hi, hC]; simp
          have hrec := (ih (processResp cfg st r).1).2.1 h1' h2'
          have hcnt : (if (processResp cfg st r).2.2 = true then 0
              else countCloses cfg (processResp cfg st r).1 rest) ≤ 1 := by
            split
            · exact Nat.zero_le 1
            · exact hrec
          omega

end Grok2Api

namespace Grok2Api

/-- A concrete run configuration: "show thinking" on, one filtered tag
that matches nothing, empty base URL, URL image mode, the default
timeouts, and a base64 collaborator that always raises. -/
def exampleCfg : StreamCfg :=
  ⟨true, "ZZZ", "", "url", 120, 30, 600, fun _ => .exn⟩

/-- The spec's latch scenario: thinking, thinking, plain, thinking. -/
def exThinkEnvs : List GrokResp :=
  [convResp true "A", convResp true "B", convResp false "C", convResp true "D"]

/-- C3: the thinking state is a one-way latch.  For every envelope
sequence (with "show thinking" enabled) the engine enters thinking mode
at most once and leaves it at most once; with "show thinking" enabled
the entering step emits exactly one chunk prefixed by the opening
marker and the leaving step exactly one chunk prefixed by the closing
marker; once the latch has closed, every further thinking-tagged
conversation envelope emits nothing; and the spec's concrete sequence
`[thinking, thinking, plain, thinking]` emits exactly the opening
marker chunk, one plain chunk, and the closing marker chunk — nothing
from the final thinking envelope. -/
theorem thinking_latch :
    (∀ (cfg : StreamCfg) (t0 : Int) (rs : List GrokResp), cfg.show_thinking = true →
      countOpens cfg (initPState t0) rs ≤ 1 ∧ countCloses cfg (initPState t0) rs ≤ 1) ∧
    (∀ (cfg : StreamCfg) (st : PState) (r : GrokResp), cfg.show_thinking = true →
      st.is_thinking = false → (processResp cfg st r).1.is_thinking = true →
      ∃ m tok, (processResp cfg st r).2.1 =
        [Chunk.delta m ("<think>\n" ++ headerWrap r tok) none]) ∧
    (∀ (cfg : StreamCfg) (st : PState) (r : GrokResp), cfg.show_thinking = true →
      st.is_thinking = true → (processResp cfg st r).1.is_thinking = false →
      ∃ m tok, (processResp cfg st r).2.1 =
        [Chunk.delta m ("\n</think>\n" ++ headerWrap r tok) none]) ∧
    (∀ (cfg : StreamCfg) (st : PState) (r : GrokResp),
      st.thinking_finished = true → r.isThinking = true → r.video = none →
      r.imageAttachmentInfo = false → st.is_image = false →
      (processResp cfg st r).2.1 = []) ∧
    processAll exampleCfg (initPState 0) exThinkEnvs =
      (⟨false, false, true, none, false, -1, false, 0, 0⟩,
        [Chunk.delta "grok-4-mini-thinking-tahoe" "<think>\nA" none,
         Chunk.delta "grok-4-mini-thinking-tahoe" "B" none,
         Chunk.delta "grok-4-mini-thinking-tahoe" "\n</think>\nC" none]) := by
  refine ⟨?_, ?_, ?_, ?_, ?_⟩
  · intro cfg t0 rs _
    exact ⟨(countOpens_aux cfg rs (initPState t0)).2.2 rfl rfl,
      (countCloses_aux cfg rs (initPState t0)).2.2 rfl rfl⟩
  · intro cfg st r hshow hA h2
    exact processResp_open_out cfg st r hshow hA h2
  · intro cfg st r hshow hA h2
    exact processResp_close_out cfg st r hshow hA h2
  · intro cfg st r hf hth hv hflag himg
    rw [processResp_suppressed cfg st r hf hth hv hflag himg]
  · decide

/-- C3 witness: the latch bounds and the suppression fact evaluated on
the concrete scenario (latched state, thinking-tagged envelope). -/
theorem thinking_latch_witness :
    (countOpens exampleCfg (initPState 0) exThinkEnvs ≤ 1 ∧
      countCloses exampleCfg (initPState 0) exThinkEnvs ≤ 1) ∧
    (processResp exampleCfg ⟨false, false, true, none, false, -1, false, 0, 0⟩
      (convResp true "D")).2.1 = [] :=
  ⟨thinking_latch.1 exampleCfg 0 exThinkEnvs rfl,
    thinking_latch.2.2.2.1 exampleCfg ⟨false, false, true, none, false, -1, false, 0, 0⟩
      (convResp true "D") rfl rfl rfl rfl rfl⟩

end Grok2Api

namespace Grok2Api

theorem videoProgressStep_last (cfg : StreamCfg) (st : PState) (v : VideoResp) :
    (videoProgressStep cfg st v).1.last_video_progress =
      max st.last_video_progress v.progress := by
  unfold videoProgressStep
  split <;> (try split) <;> (try split) <;> (try split) <;> simp <;> omega

theorem videoProgressStep_emits (cfg : StreamCfg) (st : PState) (v : VideoResp) :
    (videoProgressStep cfg st v).2 ≠ [] → st.last_video_progress < v.progress := by
  unfold videoProgressStep
  split
  · intro _; assumption
  · intro h; simp at h

theorem processResp_videoResp (cfg : StreamCfg) (st : PState) (p : Int) :
    processResp cfg st (videoResp p) =
      ((videoProgressStep cfg st ⟨p, none⟩).1, (videoProgressStep cfg st ⟨p, none⟩).2,
        false) := by
  unfold processResp videoResp videoStep applyUserModel
  dsimp only
  simp

theorem processAll_video_last (cfg : StreamCfg) :
    ∀ (ps : List Int) (st : PState),
      (processAll cfg st (ps.map videoResp)).1.last_video_progress =
        ps.foldl (fun a p => max a p) st.last_video_progress := by
  intro ps
  induction ps with
  | nil => intro st; rfl
  | cons p ps ih =>
    intro st
    have hstep := processResp_videoResp cfg st p
    simp [processAll, hstep, ih, videoProgressStep_last]

theorem foldl_max_init (ps : List Int) : ∀ b : Int, b ≤ ps.foldl (fun a p => max a p) b := by
  induction ps with
  | nil => intro b; simp
  | cons p ps ih =>
    intro b
    simpa using le_trans (le_max_left b p) (ih (max b p))

theorem foldl_max_mem (ps : List Int) :
    ∀ (b x : Int), x ∈ ps → x ≤ ps.foldl (fun a p => max a p) b := by
  induction ps with
  | nil => intro b x hx; cases hx
  | cons p ps ih =>
    intro b x hx
    rcases List.mem_cons.mp hx with rfl | hx
    · simpa using le_trans (le_max_right b x) (foldl_max_init ps (max b x))
    · simpa using ih (max b p) x hx

/-- C6: video progress coalescing.  Whenever a video-progress envelope
produces output, its progress value strictly exceeds every previously
seen progress value (the internal latch always holds the running
maximum, seeded with −1); the spec's sequence `[10, 10, 30, 25, 100]`
emits exactly the chunks for 10, 30 and 100. -/
theorem video_progress_monotone :
    (∀ (cfg : StreamCfg) (ps : List Int) (i : Nat) (hi : i < ps.length),
      (processResp cfg (processAll cfg (initPState 0) ((ps.take i).map videoResp)).1
          (videoResp (ps.get ⟨i, hi⟩))).2.1 ≠ [] →
      ∀ (j : Nat) (hj : j < ps.length), j < i → ps.get ⟨j, hj⟩ < ps.get ⟨i, hi⟩) ∧
    processAll exampleCfg (initPState 0) ([10, 10, 30, 25, 100].map videoResp) =
      (⟨false, false, false, none, true, 100, false, 0, 0⟩,
        [Chunk.delta "grok-4-mini-thinking-tahoe" "<think>视频已生成10%\n" none,
         Chunk.delta "grok-4-mini-thinking-tahoe" "视频已生成30%\n" none,
         Chunk.delta "grok-4-mini-thinking-tahoe" "视频已生成100%</think>\n" none]) := by
  constructor
  · intro cfg ps i hi hne j hj hji
    have hlast :
        (processAll cfg (initPState 0) ((ps.take i).map videoResp)).1.last_video_progress =
          (ps.take i).foldl (fun a p => max a p) (-1) :=
      processAll_video_last cfg (ps.take i) (initPState 0)
    rw [processResp_videoResp] at hne
    dsimp only at hne
    have hlt := videoProgressStep_emits cfg _ ⟨ps.get ⟨i, hi⟩, none⟩ hne
    dsimp only at hlt
    rw [hlast] at hlt
    have hjt : j < (ps.take i).length := by
      rw [List.length_take]; omega
    have hget : (ps.take i).get ⟨j, hjt⟩ = ps.get ⟨j, hj⟩ := by
      simp [List.getElem_take']
    have hmem : ps.get ⟨j, hj⟩ ∈ ps.take i := by
      rw [← hget]; exact List.get_mem _ _ _
    have hb := foldl_max_mem (ps.take i) (-1) (ps.get ⟨j, hj⟩) hmem
    omega
  · decide

/-- C6 witness: the monotonicity statement applied at the concrete
sequence `[10, 30]`, step 1 (which does emit), position 0. -/
theorem video_progress_monotone_witness : (10 : Int) < 30 :=
  video_progress_monotone.1 exampleCfg [10, 30] 1 (by decide) (by decide) 0 (by decide)
    (by decide)

/-- C7: graceful timeout termination.  Whenever any of the three timers
(first-data, total, inter-chunk) is violated at a line arrival, the
engine emits exactly one stop chunk followed by the terminal sentinel
and ends the stream normally — no error is raised; in particular a
stream whose first line arrives after `first_timeout` produces exactly
the stop chunk and the sentinel. -/
theorem timeout_graceful :
    (∀ (cfg : StreamCfg) (st : PState) (t : Int) (ln : Line) (rest : List (Int × Line)),
      checkTimeout cfg st t = true →
      runStream cfg st ((t, ln) :: rest) =
        ([mkDelta st "" (some "stop"), Chunk.done], StreamResult.finished)) ∧
    runStream exampleCfg (initPState 0) [(31, Line.blank)] =
      ([Chunk.delta "grok-4-mini-thinking-tahoe" "" (some "stop"), Chunk.done],
        StreamResult.finished) := by
  constructor
  · intro cfg st t ln rest h
    unfold runStream
    rw [if_pos h]
  · decide

/-- C7 witness: the graceful-timeout equation applied at a concrete
violated first-data timer. -/
theorem timeout_graceful_witness :
    runStream exampleCfg (initPState 0) [(31, Line.blank)] =
      ([Chunk.delta "grok-4-mini-thinking-tahoe" "" (some "stop"), Chunk.done],
        StreamResult.finished) :=
  timeout_graceful.1 exampleCfg (initPState 0) 31 Line.blank [] (by decide)

end Grok2Api

namespace Grok2Api

/-! ## Orchestrator moderation recovery — `src/app/services/grok/client.py`

`GrokClient._retry` is modelled as a loop of at most `MAX_RETRY = 3`
iterations.  The external token provider is a sequence of tokens (the
`k`-th `get_token` call returns `tokens k`); the whole attempt body
(upload, payload build, `_request`) is summarised by the behaviour of
the `i`-th iteration's attempt: success, or a raised `GrokApiException`
with error code and optional context status.  The trace records the
token used by each iteration, every `_auto_enable_nsfw` call (both the
proactive `auto_nsfw` call site at line 79 and the recovery call site
at line 104), the process-wide `_nsfw_enabled_tokens` set, and sleeps. -/

/-- Outcome of one `_retry` iteration's attempt. -/
inductive AttemptOut where
  | ok
  | err (code : String) (status : Option Nat)
deriving DecidableEq, Repr

/-- Client-level configuration: the `auto_nsfw` flag and the configured
retryable status codes. -/
structure ClientCfg where
  auto_nsfw : Bool
  retry_codes : List Nat
deriving DecidableEq, Repr

/-- Observable effects of one `_retry` run. -/
structure ClientTrace where
  used : List String
  enables : List String
  nsfw_set : List String
  sleeps : Nat
deriving DecidableEq, Repr

/-- Result of `_retry`: a success on iteration `i`, or a raised typed
error. -/
inductive ClientResult where
  | success (i : Nat)
  | raised (code : String)
deriving DecidableEq, Repr

def MAX_RETRY : Nat := 3

/-- The loop body of `GrokClient._retry` (lines 69–124), one fuel unit
per iteration.  `force` carries `force_token`; a `CONTENT_MODERATED`
exception always calls `_auto_enable_nsfw(token)` (line 104, not gated
by the process-wide set and not recorded in it) and forces the same
token for the next iteration; `HTTP_ERROR` / `NO_AVAILABLE_TOKEN` with
a retryable context status sleeps and rotates normally; any other code
re-raises. -/
def clientRetryAux (cfg : ClientCfg) (tokens : Nat → String) (attempts : Nat → AttemptOut) :
    Nat → Nat → Nat → Option String → Option String → ClientTrace →
    ClientResult × ClientTrace
  | 0, _, _, _, lastErr, tr => (.raised (lastErr.getD "REQUEST_ERROR"), tr)
  | fuel + 1, i, tokCalls, force, _lastErr, tr =>
    let token := match force with
      | some t => t
      | none => tokens tokCalls
    let tokCalls' := match force with
      | some _ => tokCalls
      | none => tokCalls + 1
    let tr1 := { tr with used := tr.used ++ [token] }
    let tr2 := if cfg.auto_nsfw && !tr1.nsfw_set.contains token then
        { tr1 with enables := tr1.enables ++ [token], nsfw_set := tr1.nsfw_set ++ [token] }
      else tr1
    match attempts i with
    | .ok => (.success i, tr2)
    | .err code status =>
      if code = "CONTENT_MODERATED" then
        clientRetryAux cfg tokens attempts fuel (i + 1) tokCalls' (some token) (some code)
          { tr2 with enables := tr2.enables ++ [token],
                     sleeps := tr2.sleeps + (if i + 1 < MAX_RETRY then 1 else 0) }
      else if code ≠ "HTTP_ERROR" ∧ code ≠ "NO_AVAILABLE_TOKEN" then (.raised code, tr2)
      else
        if (match status with
            | some st => cfg.retry_codes.contains st
            | none => false) then
          clientRetryAux cfg tokens attempts fuel (i + 1) tokCalls' none (some code)
            { tr2 with sleeps := tr2.sleeps + (if i + 1 < MAX_RETRY then 1 else 0) }
        else (.raised code, tr2)

/-- Model of `GrokClient._retry` from a fresh process state (empty
`_nsfw_enabled_tokens` set). -/
def clientRetry (cfg : ClientCfg) (tokens : Nat → String) (attempts : Nat → AttemptOut) :
    ClientResult × ClientTrace :=
  clientRetryAux cfg tokens attempts MAX_RETRY 0 0 none none ⟨[], [], [], 0⟩

/-- Model of `GrokClient._nsfw_retry_stream` (lines 327–340): forward the first
stream's chunks; when it ends in a `CONTENT_MODERATED` exception,
unconditionally call the permissive-mode enable for the held token,
re-issue the request and splice the fresh stream's chunks onto the
already-open output.  A stream is summarised as its chunk list plus
whether iterating it raises `CONTENT_MODERATED` at the end.  Returns
(yielded chunks, enable calls, whether moderation escapes to the
consumer — the second iteration is not guarded by the handler). -/
def nsfwRetryStream (tok : String) (first retry : List Chunk × Bool) :
    List Chunk × List String × Bool :=
  if first.2 then (first.1 ++ retry.1, [tok], retry.2)
  else (first.1, [], false)

/-- Default client configuration: `auto_nsfw` off, retryable `[401, 429]`. -/
def defaultClientCfg : ClientCfg := ⟨false, [401, 429]⟩

/-- Attempt behaviour of the counterexample run: moderation on the
first two attempts, success on the third. -/
def cexAttempts : Nat → AttemptOut :=
  fun i => if i < 2 then .err "CONTENT_MODERATED" none else .ok

end Grok2Api

namespace Grok2Api

/-! ## Orchestrator theorems -/

/-- C1 counterexample: with `auto_nsfw` off (the default), one
credential `"tok"` and an upstream that flags moderation on the first
two attempts, the recovery path calls the permissive-mode enable twice
for the same credential in one process lifetime — the process-wide set
gates only the proactive call site, so "the enable call is issued
exactly once per credential" is false (the retry does reuse the same
credential each time). -/
theorem moderation_enable_not_once :
    clientRetry defaultClientCfg (fun _ => "tok") cexAttempts =
      (.success 2, ⟨["tok", "tok", "tok"], ["tok", "tok"], [], 2⟩) ∧
    (clientRetry defaultClientCfg (fun _ => "tok") cexAttempts).2.enables.count "tok" ≠ 1 := by
  exact ⟨by decide, by decide⟩

/-- C1 amended: when the upstream flags content as moderated, the
orchestrator retries immediately reusing the same credential, but the
permissive-mode enable is called on every moderation recovery — `k`
consecutive recoveries on one credential issue `k` enable calls (the
process-wide set gates only the proactive `auto_nsfw` call site); and
the mid-stream wrapper splices the fresh stream onto the open one while
likewise calling the enable unconditionally once per moderation event. -/
theorem moderation_recovery_behavior :
    (∀ (tokens : Nat → String) (k : Nat), k ≤ 2 →
      clientRetry ⟨false, [401, 429]⟩ tokens
          (fun i => if i < k then .err "CONTENT_MODERATED" none else .ok) =
        (.success k,
          ⟨List.replicate (k + 1) (tokens 0), List.replicate k (tokens 0), [],
            k⟩)) ∧
    (∀ (tok : String) (first retry : List Chunk × Bool), first.2 = true →
      nsfwRetryStream tok first retry = (first.1 ++ retry.1, [tok], retry.2)) := by
  constructor
  · intro tokens k hk
    interval_cases k <;>
      simp [clientRetry, clientRetryAux, MAX_RETRY, List.replicate]
  · intro tok first retry h
    unfold nsfwRetryStream
    rw [if_pos h]

/-- C1 amended witness: the two-recovery run on credential `"tok"` and
a moderated first stream, evaluated concretely. -/
theorem moderation_recovery_behavior_witness :
    clientRetry ⟨false, [401, 429]⟩ (fun _ => "tok")
        (fun i => if i < 2 then .err "CONTENT_MODERATED" none else .ok) =
      (.success 2, ⟨List.replicate 3 "tok", List.replicate 2 "tok", [], 2⟩) ∧
    nsfwRetryStream "tok" ([Chunk.done], true) ([], false) =
      ([Chunk.done] ++ [], ["tok"], false) :=
  ⟨moderation_recovery_behavior.1 (fun _ => "tok") 2 (by decide),
    moderation_recovery_behavior.2 "tok" ([Chunk.done], true) ([], false) rfl⟩

end Grok2Api
